import Mathlib

/-!
# Verification of the chipool fixed-size object pool allocator

Shallow embedding of `chipool.hpp` (namespace `chipool`), a fixed-size
object-pool allocator.  The embedding is parametric in `s = sizeof(T)`,
mirroring the C++ template parameter `T`.  Machine addresses (`uintptr_t`)
and all header fields are modelled as `Nat`; `uint16_t` header fields are
reduced `% 65536` exactly where the C++ performs a narrowing store, and the
in-slot link field (`Chip::next_idx`, `uint8_t` when `sizeof(T) == 1`, else
`uint16_t`) is reduced modulo its width on every store.

We assume an LP64 / LLP64 64-bit target (pointers are 8 bytes), the common
case for this header; sizes below are derived from the struct layouts under
the standard ABI rules.
-/

set_option maxRecDepth 8000

namespace Chipool

/-- `detail::kPageSize = 4096`. -/
def kPageSize : Nat := 4096

/-- `detail::kInvalidIdx = (uint16_t)~0 = 0xFFFF`. -/
def kInvalidIdx : Nat := 65535

/-- `ptr & detail::kPageMask` with `kPageMask = ~0xFFFull`: clears the low
12 bits of the address, i.e. rounds down to a multiple of 4096. -/
def maskAddr (a : Nat) : Nat := a / 4096 * 4096

/-- `sizeof(SubPool<T>::Header)`.  Both `Header1Byte` and `HeaderNot1Byte`
hold four `uint16_t` fields (8 bytes, offsets 0..7) followed by a
`SubPool*` (8 bytes at offset 8 on a 64-bit target); there is no padding,
so `sizeof(Header) = 16` for every object size.  (On 32-bit Windows the
pointer is 4 bytes and `HeaderNot1Byte` adds a `uint32_t reserve2`, giving
16 bytes as well.) -/
def headerSize : Nat := 2 + 2 + 2 + 2 + 8

/-- `sizeof(SubPool<T>::Chip)` where `Chip` is
`union { uint8_t|uint16_t next_idx; T value; }`: 1 byte when
`sizeof(T) == 1`, otherwise `sizeof(T)` (we assume `alignof(T)` divides
`sizeof(T)` and is at least 2 for `sizeof(T) >= 2`, so the union adds no
padding; this holds for every instantiation used below: 8, 1360, 2040). -/
def chipSize (s : Nat) : Nat := if s = 1 then 1 else s

/-- Modulus of the in-slot link field `Chip::next_idx`:
`uint8_t` (256) when `sizeof(T) == 1`, else `uint16_t` (65536). -/
def linkMod (s : Nat) : Nat := if s = 1 then 256 else 65536

/-- `SubPool<T>::kUsableSize = (sizeof(T) == 1 ? kPageSize/8 : kPageSize) - sizeof(Header)`. -/
def kUsableSize (s : Nat) : Nat := (if s = 1 then kPageSize / 8 else kPageSize) - headerSize

/-- `SubPool<T>::kChipCount = kUsableSize / sizeof(Chip)`. -/
def kChipCount (s : Nat) : Nat := kUsableSize s / chipSize s

/-- `detail::is_valid_chip_v<T> = (SubPool<T>::kUsableSize % sizeof(T)) == 0`,
the `requires` clause on `Pool<T>`. -/
def is_valid_chip (s : Nat) : Prop := kUsableSize s % s = 0

instance (s : Nat) : Decidable (is_valid_chip s) := by
  unfold is_valid_chip; infer_instance

/-- `sizeof(SubPool<T>)` for `sizeof(T) == 1`:
header (16) plus `kChipCount` one-byte chips (496) = 512. -/
def subPool1Size : Nat := headerSize + kChipCount 1 * chipSize 1

/-- `pool_num = detail::kPageSize / sizeof(SubPool)` in `AllocSubPool`
for `sizeof(T) == 1`: the number of sub-pools packed into one page. -/
def poolNum1 : Nat := kPageSize / subPool1Size

/-- Address of slot `idx` of the chunk based at `base`:
`&pool->usable_mems[idx].value`, i.e. `base + sizeof(Header) + idx*sizeof(Chip)`. -/
def slotAddr (s base idx : Nat) : Nat := base + headerSize + idx * chipSize s

/-- One `SubPool<T>` header, as seen through a `SubPool*` at address `base`.
`base` is the address the object lives at (not stored memory); the other
four fields are the `Header` fields.  `next_pool = 0` models `nullptr`. -/
structure Chunk where
  base : Nat
  free_idx : Nat
  begin_idx : Nat
  used_count : Nat
  next_pool : Nat
deriving DecidableEq

/-- Header contents of zero-initialized memory (the default strategy,
`VirtualAlloc(MEM_COMMIT)`, returns zero-filled pages). -/
def zeroChunk : Chunk :=
  { base := 0, free_idx := 0, begin_idx := 0, used_count := 0, next_pool := 0 }

/-- `SubPool::IsFreeIdxValid`: `header.free_idx != kInvalidIdx`. -/
def SubPool.IsFreeIdxValid (c : Chunk) : Bool := c.free_idx != kInvalidIdx

/-- `SubPool::IsNotBeginInEnd`: `header.begin_idx != kChipCount`. -/
def SubPool.IsNotBeginInEnd (s : Nat) (c : Chunk) : Bool := c.begin_idx != kChipCount s

/-- `SubPool::IsFull`: `header.used_count == kChipCount`. -/
def SubPool.IsFull (s : Nat) (c : Chunk) : Bool := c.used_count == kChipCount s

/-- `SubPool::IsEmpty`: `header.used_count == 0`. -/
def SubPool.IsEmpty (c : Chunk) : Bool := c.used_count == 0

/-- The mutable state of one `Pool<T>` together with the chunk memory it
reaches: `chunks` is the set of `SubPool` objects that exist (each at its
`base` address), `cur` is `cur_pool_` (0 models `nullptr`), `mem` maps a
slot address to the value its `next_idx` link field currently holds
(acquired memory is zero-filled, so unwritten links read 0), `acqCount`
counts calls to the injected `allocate_` strategy, and `releaseCalls`
counts calls to the injected `deallocate_` strategy. -/
structure PoolState where
  chunks : List Chunk
  cur : Nat
  mem : Nat → Nat
  acqCount : Nat
  releaseCalls : Nat

/-- Dereference a `SubPool*`: the chunk object at address `b`, if any. -/
def findChunk (st : PoolState) (b : Nat) : Option Chunk :=
  st.chunks.find? (fun c => c.base == b)

/-- Overwrite the header of the chunk at address `b` (C++ mutates the
`SubPool` object in place; bases are unique in every state we build). -/
def setChunkL (l : List Chunk) (b : Nat) (c : Chunk) : List Chunk :=
  l.map (fun x => if x.base == b then c else x)

/-- The chunk headers `Pool::AllocSubPool` produces from one acquisition of
`kPageSize` bytes at page address `p` whose pre-existing contents are the
garbage headers `init` (`init k` = what the memory at sub-pool `k` held).
For `sizeof(T) == 1` the page is split into `poolNum1 = 8` sub-pools of 512
bytes; the loop writes `free_idx = kInvalidIdx` and `next_pool = tmp + 1`
for sub-pools 0..6, then `free_idx = kInvalidIdx` for sub-pool 7.  For
other sizes only `pool->header.free_idx = kInvalidIdx` is written.  No
other header field is written. -/
def allocSubPoolChunks (s p : Nat) (init : Nat → Chunk) : List Chunk :=
  if s = 1 then
    (List.range poolNum1).map (fun k =>
      { base := p + subPool1Size * k
        free_idx := kInvalidIdx
        begin_idx := (init k).begin_idx
        used_count := (init k).used_count
        next_pool := if k < poolNum1 - 1 then p + subPool1Size * (k + 1)
                     else (init k).next_pool })
  else
    [{ base := p
       free_idx := kInvalidIdx
       begin_idx := (init 0).begin_idx
       used_count := (init 0).used_count
       next_pool := (init 0).next_pool }]

/-- `Pool::AllocSubPool()`: acquire one page from the strategy (`acq n` is
the page address returned by the `n`-th acquisition; the default strategy
returns fresh, page-aligned, zero-filled pages) and initialize it as in
`allocSubPoolChunks`.  Returns the new `SubPool*` and the updated state. -/
def Pool.AllocSubPool (s : Nat) (acq : Nat → Nat) (st : PoolState) :
    Nat × PoolState :=
  let p := acq st.acqCount
  (p, { st with
        chunks := st.chunks ++ allocSubPoolChunks s p (fun _ => zeroChunk)
        acqCount := st.acqCount + 1 })

/-- `Pool::Allocate()`.  Returns `some (ptr, st')` with the returned slot
pointer, or `none` when the C++ would dereference a pointer to no existing
`SubPool` object (never the case in the executions below).  Mirrors the
source line by line: null-check of `cur_pool_`, full-check with advance to
`next_pool` or fresh acquisition, `++used_count` (16-bit), then either the
free-list pop (`free_idx = res.next_idx`) or the bump path
(`++begin_idx`). -/
def Pool.Allocate (s : Nat) (acq : Nat → Nat) (st : PoolState) :
    Option (Nat × PoolState) :=
  let st1 := if st.cur == 0 then
      (let r := Pool.AllocSubPool s acq st
       { r.2 with cur := r.1 })
    else st
  match findChunk st1 st1.cur with
  | none => none
  | some c =>
    let st2 := if SubPool.IsFull s c then
        (if c.next_pool != 0 then { st1 with cur := c.next_pool }
         else
           let r := Pool.AllocSubPool s acq st1
           { r.2 with cur := r.1 })
      else st1
    match findChunk st2 st2.cur with
    | none => none
    | some c2 =>
      let used := (c2.used_count + 1) % 65536
      if SubPool.IsFreeIdxValid c2 then
        let addr := slotAddr s c2.base c2.free_idx
        let c3 := { c2 with used_count := used
                            free_idx := st2.mem addr % linkMod s }
        some (addr, { st2 with chunks := setChunkL st2.chunks c2.base c3 })
      else
        let addr := slotAddr s c2.base c2.begin_idx
        let c3 := { c2 with used_count := used
                            begin_idx := (c2.begin_idx + 1) % 65536 }
        some (addr, { st2 with chunks := setChunkL st2.chunks c2.base c3 })

/-- Second half of `Pool::Deallocate` (the statements after the rotation
block): re-read the owning chunk, decrement `used_count` (16-bit), and
either reset the now-empty chunk (`free_idx` to the sentinel, `begin_idx`
to 0) or push the freed slot on the free list (store the chunk's current
`free_idx` into the slot's `next_idx` link field, truncated to the link
width, then set `free_idx` to the freed slot's index). -/
def Pool.DeallocCommit (s ptr base idx : Nat) (stR : PoolState) : Option PoolState :=
  match findChunk stR base with
  | none => none
  | some pool2 =>
    let used := (pool2.used_count + 65535) % 65536
    if used == 0 then
      some { stR with
             chunks := setChunkL stR.chunks base
               ({ pool2 with used_count := used
                             free_idx := kInvalidIdx
                             begin_idx := 0 }) }
    else
      some { stR with
             chunks := setChunkL stR.chunks base
               ({ pool2 with used_count := used
                             free_idx := idx % 65536 })
             mem := fun a => if a == ptr then pool2.free_idx % linkMod s
                             else stR.mem a }

/-- `Pool::Deallocate(T* ptr)`.  Recovers the owning `SubPool*` by masking
(`(uintptr_t)ptr & kPageMask`), computes the slot index
(`(ptr - pool->usable_mems) / sizeof(Chip)`), splices a full chunk back
into rotation (`pool->header.next_pool = cur_pool_` only when the current
chunk is not itself full, then `cur_pool_ = pool`), and finishes with
`Pool.DeallocCommit` (the decrement and free-list/reset statements).
`none` models a dereference of a pointer to no existing `SubPool` object
(including `cur_pool_ == nullptr` in the rotation branch). -/
def Pool.Deallocate (s : Nat) (st : PoolState) (ptr : Nat) : Option PoolState :=
  let base := maskAddr ptr
  let idx := (ptr - (base + headerSize)) / chipSize s
  match findChunk st base with
  | none => none
  | some pool =>
    let rot : Option PoolState :=
      if SubPool.IsFull s pool then
        match findChunk st st.cur with
        | none => none
        | some curc =>
          let st' := if ¬ SubPool.IsFull s curc then
              { st with chunks := setChunkL st.chunks base ({ pool with next_pool := st.cur }) }
            else st
          some { st' with cur := base }
      else some st
    match rot with
    | none => none
    | some stR => Pool.DeallocCommit s ptr base idx stR

/-- `~Pool()` has an empty body: destruction releases nothing. -/
def Pool.destroy (st : PoolState) : PoolState := st

/-- A freshly constructed `Pool`: `cur_pool_ = nullptr`, no chunks, no
strategy calls made. -/
def init0 : PoolState :=
  { chunks := [], cur := 0, mem := fun _ => 0, acqCount := 0, releaseCalls := 0 }

/-- A concrete well-behaved acquisition strategy: the `n`-th acquisition
returns the fresh, nonzero, page-aligned address `4096*(n+1)` of a
zero-filled page (the behavior of the default `VirtualAlloc` binding). -/
def stdAcq : Nat → Nat := fun n => 4096 * (n + 1)

/-- One externally observable operation on a `Pool`. -/
inductive Op where
  | alloc : Op
  | dealloc : Nat → Op
deriving DecidableEq

/-- Run a sequence of `Allocate` / `Deallocate` calls. -/
def runOps (s : Nat) (acq : Nat → Nat) : List Op → PoolState → Option PoolState
  | [], st => some st
  | Op.alloc :: rest, st =>
    (Pool.Allocate s acq st).bind (fun r => runOps s acq rest r.2)
  | Op.dealloc a :: rest, st =>
    (Pool.Deallocate s st a).bind (fun st' => runOps s acq rest st')

/-- Run `n` consecutive `Allocate` calls, appending the returned slot
pointers in order to `acc` (tail recursion keeps evaluation iterative). -/
def runAllocsAux (s : Nat) (acq : Nat → Nat) :
    Nat → List Nat → PoolState → Option (List Nat × PoolState)
  | 0, acc, st => some (acc, st)
  | n + 1, acc, st =>
    match Pool.Allocate s acq st with
    | none => none
    | some (a, st') => runAllocsAux s acq n (acc ++ [a]) st'

/-- Run `n` consecutive `Allocate` calls from `st`, collecting the returned
slot pointers in order. -/
def runAllocs (s : Nat) (acq : Nat → Nat) (n : Nat) (st : PoolState) :
    Option (List Nat × PoolState) :=
  runAllocsAux s acq n [] st

/-- Observable header of the chunk at address `b`:
`(free_idx, begin_idx, used_count, next_pool)`. -/
def headerOf (st : PoolState) (b : Nat) : Option (Nat × Nat × Nat × Nat) :=
  (findChunk st b).map (fun c => (c.free_idx, c.begin_idx, c.used_count, c.next_pool))

/-- `headerOf` through an `Option PoolState`. -/
def headerOf? (o : Option PoolState) (b : Nat) : Option (Nat × Nat × Nat × Nat) :=
  o.bind (fun st => headerOf st b)

/-- `cur_pool_` through an `Option PoolState`. -/
def curOf? (o : Option PoolState) : Option Nat := o.map (fun st => st.cur)

/-- A slot's stored link value through an `Option PoolState`. -/
def memAt? (o : Option PoolState) (a : Nat) : Option Nat :=
  o.map (fun st => st.mem a)

/-- Header change performed by the bump path of `Allocate`:
`++used_count; ++begin_idx` (16-bit). -/
def bumpChunk (c : Chunk) : Chunk :=
  { c with begin_idx := (c.begin_idx + 1) % 65536,
           used_count := (c.used_count + 1) % 65536 }

/-- Header change performed by the free-list pop path of `Allocate`:
`++used_count; free_idx = res.next_idx` where `link` is the value read
from the popped slot's link field. -/
def popChunk (s : Nat) (c : Chunk) (link : Nat) : Chunk :=
  { c with used_count := (c.used_count + 1) % 65536,
           free_idx := link % linkMod s }

/-- Header with both `begin_idx` and `used_count` set to `n` (the shape a
chunk has after `n` consecutive bump allocations from fresh). -/
def bumpTo (c : Chunk) (n : Nat) : Chunk :=
  { c with begin_idx := n, used_count := n }

/-- Header change performed by the empty-reset branch of `Deallocate`:
`used_count` reached 0, `free_idx` is set to the sentinel and `begin_idx`
to 0. -/
def resetChunk (c : Chunk) : Chunk :=
  { c with used_count := 0, free_idx := kInvalidIdx, begin_idx := 0 }

/-! ## Concrete scenario states

All scenarios use `stdAcq`, so the first acquired page is at 4096 and the
second at 8192.  Valid instantiations used: `sizeof(T) = 8`
(`kChipCount = 510`), `sizeof(T) = 1` (`kChipCount = 496`, eight chunks
per page), `sizeof(T) = 2040` (`kChipCount = 2`), `sizeof(T) = 1360`
(`kChipCount = 3`); each satisfies `is_valid_chip`. -/

/-- The single chunk of an 8-byte-object pool after its first allocation. -/
def c1_8 : Chunk :=
  { base := 4096, free_idx := 65535, begin_idx := 1, used_count := 1, next_pool := 0 }

/-- 8-byte-object pool state after the first `Allocate` (one chunk at
4096, slot 0 handed out). -/
def st1_8 : PoolState :=
  { chunks := [c1_8], cur := 4096, mem := fun _ => 0, acqCount := 1, releaseCalls := 0 }

/-- First chunk (at the page base) of a 1-byte-object pool after its first
allocation; `AllocSubPool` chained it to the next sub-pool at 4608. -/
def c0_1 : Chunk :=
  { base := 4096, free_idx := 65535, begin_idx := 1, used_count := 1, next_pool := 4608 }

/-- The eight chained chunks of a 1-byte-object pool after the first
allocation: one page at 4096 split into eight 512-byte sub-pools. -/
def chain1 : List Chunk :=
  [c0_1,
   { base := 4608, free_idx := 65535, begin_idx := 0, used_count := 0, next_pool := 5120 },
   { base := 5120, free_idx := 65535, begin_idx := 0, used_count := 0, next_pool := 5632 },
   { base := 5632, free_idx := 65535, begin_idx := 0, used_count := 0, next_pool := 6144 },
   { base := 6144, free_idx := 65535, begin_idx := 0, used_count := 0, next_pool := 6656 },
   { base := 6656, free_idx := 65535, begin_idx := 0, used_count := 0, next_pool := 7168 },
   { base := 7168, free_idx := 65535, begin_idx := 0, used_count := 0, next_pool := 7680 },
   { base := 7680, free_idx := 65535, begin_idx := 0, used_count := 0, next_pool := 0 }]

/-- 1-byte-object pool state after the first `Allocate`. -/
def st1_1 : PoolState :=
  { chunks := chain1, cur := 4096, mem := fun _ => 0, acqCount := 1, releaseCalls := 0 }

/-- 1-byte-object pool state after 497 allocations: the first sub-pool
(at 4096) is full with its 496 slots, the 497th allocation advanced to
the chained sub-pool at 4608 and handed out its slot 0 (address 4624). -/
def st497 : PoolState :=
  { chunks :=
      [{ base := 4096, free_idx := 65535, begin_idx := 496, used_count := 496, next_pool := 4608 },
       { base := 4608, free_idx := 65535, begin_idx := 1, used_count := 1, next_pool := 5120 },
       { base := 5120, free_idx := 65535, begin_idx := 0, used_count := 0, next_pool := 5632 },
       { base := 5632, free_idx := 65535, begin_idx := 0, used_count := 0, next_pool := 6144 },
       { base := 6144, free_idx := 65535, begin_idx := 0, used_count := 0, next_pool := 6656 },
       { base := 6656, free_idx := 65535, begin_idx := 0, used_count := 0, next_pool := 7168 },
       { base := 7168, free_idx := 65535, begin_idx := 0, used_count := 0, next_pool := 7680 },
       { base := 7680, free_idx := 65535, begin_idx := 0, used_count := 0, next_pool := 0 }],
    cur := 4608, mem := fun _ => 0, acqCount := 1, releaseCalls := 0 }

/-- 497 allocations of a 1-byte-object pool from scratch. -/
def run497 : Option (List Nat × PoolState) := runAllocs 1 stdAcq 497 init0

/-- ... then `Deallocate` of the 497th slot (address 4624, a slot of the
chunk at 4608). -/
def trace1 : Option PoolState :=
  run497.bind (fun pr => Pool.Deallocate 1 pr.2 4624)

/-- 2040-byte-object scenario (`kChipCount = 2`): fill chunk A (at 4096),
start chunk B (at 8192), free a slot of full A while B is current and not
full (links `A.next_pool = B`), refill A, fill B, free another slot of
full A while B is current and full (the stale `A.next_pool = B` link is
kept), and refill A.  Chunk A is now full and still links to the full
chunk B. -/
def opsC2 : List Op :=
  [Op.alloc, Op.alloc, Op.alloc, Op.dealloc 4112,
   Op.alloc, Op.alloc, Op.dealloc 6152, Op.alloc]

/-- Running `opsC2` and then one more `Allocate`: the pool advances into
the full chunk B. -/
def traceC2 : Option (Nat × PoolState) :=
  (runOps 2040 stdAcq opsC2 init0).bind (fun st => Pool.Allocate 2040 stdAcq st)

/-- 1360-byte-object scenario (`kChipCount = 3`): allocate slots A
(4112), B (5472), C (6832) from one fresh chunk, then free B. -/
def stABC : PoolState :=
  (runOps 1360 stdAcq [Op.alloc, Op.alloc, Op.alloc, Op.dealloc 5472] init0).getD init0

/-- 1360-byte-object scenario: fill the chunk (slots 4112, 5472, 6832),
then free 5472 and 6832; one live slot (4112) remains. -/
def stC7 : PoolState :=
  (runOps 1360 stdAcq
    [Op.alloc, Op.alloc, Op.alloc, Op.dealloc 5472, Op.dealloc 6832] init0).getD init0

/-- 2040-byte-object scenario: chunk A (at 4096) is full, chunk B
(at 8192) is current with one of its two slots used. -/
def stC8 : PoolState :=
  (runOps 2040 stdAcq [Op.alloc, Op.alloc, Op.alloc] init0).getD init0

/-- State reached by `opsC2` (used as a concrete witness run). -/
def stC9 : PoolState := (runOps 2040 stdAcq opsC2 init0).getD init0

/-! ## Helper lemmas about chunk lookup and header update -/

theorem findChunk_base {st : PoolState} {b : Nat} {c : Chunk}
    (h : findChunk st b = some c) : c.base = b := by
  have := List.find?_some h
  simpa using this

theorem setChunkL_nil (b : Nat) (c' : Chunk) : setChunkL [] b c' = [] := rfl

theorem setChunkL_cons (x : Chunk) (xs : List Chunk) (b : Nat) (c' : Chunk) :
    setChunkL (x :: xs) b c' =
      (if x.base == b then c' else x) :: setChunkL xs b c' := rfl

theorem find?_setChunkL_self (l : List Chunk) (b : Nat) (c c' : Chunk)
    (h : l.find? (fun x => x.base == b) = some c) (hb : c'.base = b) :
    (setChunkL l b c').find? (fun x => x.base == b) = some c' := by
  induction l with
  | nil => simp at h
  | cons x xs ih =>
    rw [setChunkL_cons]
    cases hxb : (x.base == b) with
    | true => simp [List.find?_cons, hb]
    | false =>
      rw [List.find?_cons] at h
      rw [hxb] at h
      simp at h
      simp [List.find?_cons, hxb]
      exact ih h

theorem find?_setChunkL_other (l : List Chunk) (b b' : Nat) (c' : Chunk)
    (hb : c'.base = b) (hne : b' ≠ b) :
    (setChunkL l b c').find? (fun x => x.base == b') =
      l.find? (fun x => x.base == b') := by
  have h1 : (c'.base == b') = false := by
    rw [hb]; exact beq_eq_false_iff_ne.mpr (Ne.symm hne)
  induction l with
  | nil => rw [setChunkL_nil]
  | cons x xs ih =>
    rw [setChunkL_cons]
    cases hxb : (x.base == b) with
    | true =>
      have hx : x.base = b := by simpa using hxb
      have h2 : (x.base == b') = false := by
        rw [hx]; exact beq_eq_false_iff_ne.mpr (Ne.symm hne)
      simp [List.find?_cons, h1, h2]
      exact ih
    | false =>
      cases hxb' : (x.base == b') with
      | true => simp [List.find?_cons, hxb']
      | false =>
        simp [List.find?_cons, hxb']
        exact ih

theorem setChunkL_setChunkL (l : List Chunk) (b : Nat) (c c' : Chunk)
    (hb : c.base = b) :
    setChunkL (setChunkL l b c) b c' = setChunkL l b c' := by
  induction l with
  | nil => rfl
  | cons x xs ih =>
    rw [setChunkL_cons, setChunkL_cons, setChunkL_cons]
    cases hxb : (x.base == b) with
    | true => simp [hb, ih]
    | false => simp [hxb, ih]

/-! ## Symbolic characterization of single `Allocate` / `Deallocate` steps -/

/-- Bump path of `Pool::Allocate`: when `cur_pool_` is non-null, points to
an existing chunk that is not full and whose free list is empty, `Allocate`
returns the slot at `begin_idx` of the current chunk and increments
`begin_idx` and `used_count`. -/
theorem Allocate_bump (s : Nat) (acq : Nat → Nat) (st : PoolState) (c : Chunk)
    (hcur : findChunk st st.cur = some c) (h0 : st.cur ≠ 0)
    (hfree : c.free_idx = kInvalidIdx)
    (hfull : c.used_count ≠ kChipCount s) :
    Pool.Allocate s acq st =
      some (slotAddr s st.cur c.begin_idx,
        { st with chunks := setChunkL st.chunks st.cur (bumpChunk c) }) := by
  have hbase : c.base = st.cur := findChunk_base hcur
  have h0' : (st.cur == 0) = false := by simpa using h0
  have hfull' : SubPool.IsFull s c = false := by
    simpa [SubPool.IsFull] using hfull
  have hfree' : SubPool.IsFreeIdxValid c = false := by
    simp [SubPool.IsFreeIdxValid, hfree]
  simp [Pool.Allocate, h0', hcur, hfull', hfree', hbase, bumpChunk]

/-- Free-list pop path of `Pool::Allocate`: when `cur_pool_` is non-null,
points to an existing chunk that is not full and whose `free_idx` is not
the sentinel, `Allocate` returns the slot at `free_idx` of the current
chunk, advances `free_idx` to that slot's stored link value, and
increments `used_count`. -/
theorem Allocate_pop (s : Nat) (acq : Nat → Nat) (st : PoolState) (c : Chunk)
    (hcur : findChunk st st.cur = some c) (h0 : st.cur ≠ 0)
    (hfree : c.free_idx ≠ kInvalidIdx)
    (hfull : c.used_count ≠ kChipCount s) :
    Pool.Allocate s acq st =
      some (slotAddr s st.cur c.free_idx,
        { st with chunks := setChunkL st.chunks st.cur (popChunk s c (st.mem (slotAddr s st.cur c.free_idx))) }) := by
  have hbase : c.base = st.cur := findChunk_base hcur
  have h0' : (st.cur == 0) = false := by simpa using h0
  have hfull' : SubPool.IsFull s c = false := by
    simpa [SubPool.IsFull] using hfull
  have hfree' : SubPool.IsFreeIdxValid c = true := by
    simpa [SubPool.IsFreeIdxValid] using hfree
  simp [Pool.Allocate, h0', hcur, hfull', hfree', hbase, popChunk]

theorem bumpTo_bumpChunk (c : Chunk) (n : Nat) :
    bumpTo (bumpChunk c) n = bumpTo c n := rfl

/-- Fast-forward `m + 1` consecutive bump allocations: if the current
chunk has an empty free list, `begin_idx = used_count`, and room for
`m + 1` more slots, then running `m + 1 + n` allocations first hands out
the slots `used_count, used_count+1, ...` of the current chunk in order,
advancing `begin_idx` and `used_count` together, before the remaining `n`
allocations run. -/
theorem runAllocsAux_bump (s : Nat) (acq : Nat → Nat) (m : Nat) :
    ∀ (n : Nat) (acc : List Nat) (st : PoolState) (c : Chunk),
    findChunk st st.cur = some c → st.cur ≠ 0 →
    c.free_idx = kInvalidIdx → c.begin_idx = c.used_count →
    c.used_count + (m + 1) ≤ kChipCount s → kChipCount s < 65536 →
    runAllocsAux s acq (m + 1 + n) acc st =
      runAllocsAux s acq n
        (acc ++ (List.range (m + 1)).map (fun i => slotAddr s st.cur (c.used_count + i)))
        { st with chunks := setChunkL st.chunks st.cur (bumpTo c (c.used_count + (m + 1))) } := by
  induction m with
  | zero =>
    intro n acc st c hcur h0 hfree hbe hroom hcnt
    have hfull : c.used_count ≠ kChipCount s := by omega
    have hm : c.used_count + 1 < 65536 := by omega
    have hn : 0 + 1 + n = n + 1 := by omega
    rw [hn, runAllocsAux, Allocate_bump s acq st c hcur h0 hfree hfull]
    have hb : bumpChunk c = bumpTo c (c.used_count + (0 + 1)) := by
      simp [bumpChunk, bumpTo, hbe, Nat.mod_eq_of_lt hm]
    rw [hb, hbe]
    have hr1 : List.range (0 + 1) = [0] := rfl
    have hl : (List.range (0 + 1)).map (fun i => slotAddr s st.cur (c.used_count + i)) =
        [slotAddr s st.cur c.used_count] := by
      rw [hr1]
      simp
    rw [hl]
  | succ m ih =>
    intro n acc st c hcur h0 hfree hbe hroom hcnt
    have hfull : c.used_count ≠ kChipCount s := by omega
    have hm : c.used_count + 1 < 65536 := by omega
    have hn : m + 1 + 1 + n = m + 1 + n + 1 := by omega
    rw [hn]
    have hstep : m + 1 + n + 1 = (m + 1 + n) + 1 := rfl
    rw [hstep, runAllocsAux, Allocate_bump s acq st c hcur h0 hfree hfull]
    dsimp only
    have hbase : (bumpChunk c).base = st.cur := by
      simpa [bumpChunk] using findChunk_base hcur
    have hcur' : findChunk { st with chunks := setChunkL st.chunks st.cur (bumpChunk c) } st.cur = some (bumpChunk c) := by
      unfold findChunk
      exact find?_setChunkL_self st.chunks st.cur c (bumpChunk c) hcur hbase
    have hused : (bumpChunk c).used_count = c.used_count + 1 := by
      simp [bumpChunk, Nat.mod_eq_of_lt hm]
    have hbe' : (bumpChunk c).begin_idx = (bumpChunk c).used_count := by
      simp [bumpChunk, hbe]
    have hroom' : (bumpChunk c).used_count + (m + 1) ≤ kChipCount s := by
      rw [hused]; omega
    have := ih n (acc ++ [slotAddr s st.cur c.begin_idx])
      { st with chunks := setChunkL st.chunks st.cur (bumpChunk c) } (bumpChunk c)
      hcur' h0 (by simp [bumpChunk, hfree]) hbe' hroom' hcnt
    simp only at this
    rw [this]
    rw [setChunkL_setChunkL st.chunks st.cur (bumpChunk c) _ hbase]
    rw [bumpTo_bumpChunk]
    have harith : (bumpChunk c).used_count + (m + 1) = c.used_count + (m + 1 + 1) := by
      rw [hused]; omega
    rw [harith]
    have hfg : ((fun i => slotAddr s st.cur (c.used_count + i)) ∘ Nat.succ) =
        (fun i => slotAddr s st.cur ((bumpChunk c).used_count + i)) := by
      funext i
      simp only [Function.comp_apply, hused]
      congr 1
      omega
    have hml : (List.range (m + 1 + 1)).map (fun i => slotAddr s st.cur (c.used_count + i)) =
        slotAddr s st.cur c.used_count ::
          (List.range (m + 1)).map (fun i => slotAddr s st.cur ((bumpChunk c).used_count + i)) := by
      rw [List.range_succ_eq_map, List.map_cons, List.map_map, hfg]
      simp
    have hlist2 : acc ++ [slotAddr s st.cur c.begin_idx] ++
        (List.range (m + 1)).map (fun i => slotAddr s st.cur ((bumpChunk c).used_count + i)) =
        acc ++ (List.range (m + 1 + 1)).map (fun i => slotAddr s st.cur (c.used_count + i)) := by
      rw [hml, hbe, List.append_assoc, List.singleton_append]
    rw [hlist2]

/-! ## Evaluation of the long concrete runs -/

theorem step1_8 : Pool.Allocate 8 stdAcq init0 = some (4112, st1_8) := rfl

/-- 510 allocations of an 8-byte-object pool: all 510 slots of the single
chunk at 4096 are handed out in order and the chunk ends full. -/
theorem run510_eval : runAllocs 8 stdAcq 510 init0 =
    some (4112 :: (List.range 509).map (fun i => slotAddr 8 4096 (1 + i)),
      { st1_8 with chunks := setChunkL st1_8.chunks 4096 (bumpTo c1_8 510) }) := by
  unfold runAllocs
  show runAllocsAux 8 stdAcq (509 + 1) [] init0 = _
  rw [runAllocsAux, step1_8]
  dsimp only
  show runAllocsAux 8 stdAcq (508 + 1 + 0) [4112] st1_8 = _
  have hc : findChunk st1_8 st1_8.cur = some c1_8 := rfl
  rw [runAllocsAux_bump 8 stdAcq 508 0 [4112] st1_8 c1_8 hc (by decide) rfl rfl
    (by decide) (by decide)]
  rw [runAllocsAux]
  rfl

theorem step1_1 : Pool.Allocate 1 stdAcq init0 = some (4112, st1_1) := rfl

/-- 497 allocations of a 1-byte-object pool: 496 bump allocations fill the
sub-pool at 4096, the 497th advances to the chained sub-pool at 4608 and
returns its slot 0, whose address is 4624. -/
theorem run497_eval : run497 =
    some ((4112 :: (List.range 495).map (fun i => slotAddr 1 4096 (1 + i))) ++ [4624],
      st497) := by
  unfold run497 runAllocs
  show runAllocsAux 1 stdAcq (496 + 1) [] init0 = _
  rw [runAllocsAux, step1_1]
  dsimp only
  show runAllocsAux 1 stdAcq (494 + 1 + 1) [4112] st1_1 = _
  have hc : findChunk st1_1 st1_1.cur = some c0_1 := rfl
  rw [runAllocsAux_bump 1 stdAcq 494 1 [4112] st1_1 c0_1 hc (by decide) rfl rfl
    (by decide) (by decide)]
  show runAllocsAux 1 stdAcq (0 + 1) _ _ = _
  rw [runAllocsAux]
  rfl

/-! ## Claim theorems -/

/-- C1: the claim fails on the code for 1-byte object types.  In a
1-byte-object pool the 497th `Allocate` returns the pointer 4624, a slot
of the chunk based at 4608 (the second sub-pool chained inside the page
at 4096, and the current chunk after the call); masking the pointer with
`~0xFFF` yields 4096, not the owning chunk's base 4608.  Consequently
`Deallocate(4624)` mutates the header of the chunk at 4096 (its
`used_count` drops from 496 to 495) and leaves the owning chunk at 4608
untouched (its `used_count` stays 1). -/
theorem C1_bug :
    run497.map (fun pr => (pr.1.drop 496, pr.2.cur)) = some ([4624], 4608) ∧
    slotAddr 1 4608 0 = 4624 ∧
    maskAddr 4624 = 4096 ∧ (4096 : Nat) ≠ 4608 ∧
    headerOf? trace1 4096 = some (512, 496, 495, 4608) ∧
    headerOf? trace1 4608 = some (kInvalidIdx, 1, 1, 5120) ∧
    curOf? trace1 = some 4096 := by
  have h1 : run497.map (fun pr => (pr.1.drop 496, pr.2.cur)) = some ([4624], 4608) := by
    rw [run497_eval]; decide
  have h2 : headerOf? trace1 4096 = some (512, 496, 495, 4608) := by
    unfold trace1; rw [run497_eval]; decide
  have h3 : headerOf? trace1 4608 = some (kInvalidIdx, 1, 1, 5120) := by
    unfold trace1; rw [run497_eval]; decide
  have h4 : curOf? trace1 = some 4096 := by
    unfold trace1; rw [run497_eval]; decide
  exact ⟨h1, by decide, by decide, by decide, h2, h3, h4⟩

/-- C5: the claim fails on the code for 1-byte object types.  In the same
1-byte scenario, deallocating slot 4624 stores the 16-bit sentinel 0xFFFF
through the slot's 8-bit `next_idx` field, where it reads back as 255,
not the sentinel; and the (mis-recovered) chunk at 4096 gets
`free_idx = 512`, which is neither a valid index `< kChipCount 1 = 496`
nor the sentinel 0xFFFF. -/
theorem C5_bug :
    headerOf? trace1 4096 = some (512, 496, 495, 4608) ∧
    kChipCount 1 = 496 ∧ ¬ (512 < kChipCount 1) ∧ (512 : Nat) ≠ kInvalidIdx ∧
    memAt? trace1 4624 = some 255 ∧
    kInvalidIdx % linkMod 1 = 255 ∧ (255 : Nat) ≠ kInvalidIdx := by
  have h2 : headerOf? trace1 4096 = some (512, 496, 495, 4608) := by
    unfold trace1; rw [run497_eval]; decide
  have h5 : memAt? trace1 4624 = some 255 := by
    unfold trace1; rw [run497_eval]; decide
  exact ⟨h2, by decide, by decide, by decide, h5, by decide, by decide⟩

/-- C2: the claim fails on the code.  With `sizeof(T) = 2040`
(`kChipCount = 2`), after the `opsC2` sequence the current chunk A (at
4096) is full and its `next_pool` still points at the full chunk B (at
8192).  The next `Allocate` advances into B without re-checking fullness:
it increments B's `used_count` to 3 > 2 and takes the bump path with
`begin_idx = kChipCount`, returning the slot address 12288, which lies
one full page past B's base — its slot index 2 is not `< kChipCount`. -/
theorem C2_bug :
    kChipCount 2040 = 2 ∧
    headerOf? (runOps 2040 stdAcq opsC2 init0) 4096 = some (kInvalidIdx, 2, 2, 8192) ∧
    headerOf? (runOps 2040 stdAcq opsC2 init0) 8192 = some (kInvalidIdx, 2, 2, 0) ∧
    curOf? (runOps 2040 stdAcq opsC2 init0) = some 4096 ∧
    traceC2.map (fun r => (r.1, r.2.cur)) = some (12288, 8192) ∧
    headerOf? (traceC2.map Prod.snd) 8192 = some (kInvalidIdx, 3, 3, 0) ∧
    (12288 - (8192 + headerSize)) / chipSize 2040 = kChipCount 2040 ∧
    ¬ ((12288 - (8192 + headerSize)) / chipSize 2040 < kChipCount 2040) ∧
    maskAddr 12288 ≠ 8192 := by decide

/-- C3: the claim fails on the code.  In the `opsC2` scenario
(`sizeof(T) = 2040`, `kChipCount = 2`), the `Allocate` call after `opsC2`
increments the chunk at 8192 past its capacity: its `used_count` becomes
3 > `kChipCount 2040 = 2`, even though every `Deallocate` in the sequence
respected the preconditions (each freed pointer was live and was obtained
from `Allocate`). -/
theorem C3_bug :
    kChipCount 2040 = 2 ∧
    headerOf? (traceC2.map Prod.snd) 8192 = some (kInvalidIdx, 3, 3, 0) ∧
    ¬ (3 ≤ kChipCount 2040) := by decide

/-- C4, counterexample: for an 8-byte object type the layout calculator
yields `kChipCount 8 = 510`, not 509, because `sizeof(Header)` is 16
bytes (four `uint16_t` plus an 8-byte pointer), not 24. -/
theorem C4_counterexample :
    kChipCount 8 = 510 ∧ kChipCount 8 ≠ 509 ∧
    headerSize = 16 ∧ headerSize ≠ 24 := by decide

/-- C4, amended: for an 8-byte object type the layout calculator yields
`chip_count = 510` (header 16 bytes, chunk 4096 bytes); starting from an
empty pool, the 1st through 510th `Allocate` calls return the 510 slots
of the single chunk at 4096 in order (every returned pointer masks to
4096), the 510th call makes that chunk full, and the 511th call returns
the slot 8208 of a different chunk (at 8192). -/
theorem C4_amended :
    kChipCount 8 = 510 ∧ headerSize = 16 ∧
    (runAllocs 8 stdAcq 510 init0).map
        (fun pr => (pr.1, pr.2.cur, headerOf pr.2 4096)) =
      some ((List.range 510).map (fun i => slotAddr 8 4096 i), 4096,
            some (kInvalidIdx, 510, 510, 0)) ∧
    ((List.range 510).map (fun i => slotAddr 8 4096 i)).all
        (fun a => maskAddr a == 4096) = true ∧
    (runAllocs 8 stdAcq 510 init0).bind
        (fun pr => (Pool.Allocate 8 stdAcq pr.2).map (fun r => (r.1, maskAddr r.1))) =
      some (8208, 8192) ∧
    (8192 : Nat) ≠ 4096 := by
  have hlist : (List.range 510).map (fun i => slotAddr 8 4096 i) =
      4112 :: (List.range 509).map (fun i => slotAddr 8 4096 (1 + i)) := by
    have h510 : (510 : Nat) = 509 + 1 := rfl
    rw [h510, List.range_succ_eq_map, List.map_cons, List.map_map]
    congr 1
  have h3 : (runAllocs 8 stdAcq 510 init0).map
      (fun pr => (pr.1, pr.2.cur, headerOf pr.2 4096)) =
      some ((List.range 510).map (fun i => slotAddr 8 4096 i), 4096,
            some (kInvalidIdx, 510, 510, 0)) := by
    rw [run510_eval, hlist]
    rfl
  have h4 : ((List.range 510).map (fun i => slotAddr 8 4096 i)).all
      (fun a => maskAddr a == 4096) = true := by decide
  have h5 : (runAllocs 8 stdAcq 510 init0).bind
      (fun pr => (Pool.Allocate 8 stdAcq pr.2).map (fun r => (r.1, maskAddr r.1))) =
      some (8208, 8192) := by
    rw [run510_eval]
    rfl
  exact ⟨by decide, rfl, h3, h4, h5, by decide⟩

/-- C6: free-slot recycling is LIFO.  Whenever the current chunk exists,
is not full, and its free list is non-empty (`free_idx` is not the
sentinel), `Allocate` returns exactly the slot at `free_idx` — the most
recently freed slot, since `Deallocate` sets `free_idx` to the freed
slot's index — and advances `free_idx` to the link value stored in that
slot, leaving `begin_idx` and `next_pool` unchanged and incrementing
`used_count`. -/
theorem C6_lifo (s : Nat) (acq : Nat → Nat) (st : PoolState) (c : Chunk)
    (hcur : findChunk st st.cur = some c) (h0 : st.cur ≠ 0)
    (hfree : c.free_idx ≠ kInvalidIdx)
    (hfull : c.used_count ≠ kChipCount s) :
    (Pool.Allocate s acq st).map Prod.fst = some (slotAddr s st.cur c.free_idx) ∧
    headerOf? ((Pool.Allocate s acq st).map Prod.snd) st.cur =
      some (st.mem (slotAddr s st.cur c.free_idx) % linkMod s,
            c.begin_idx, (c.used_count + 1) % 65536, c.next_pool) := by
  have hbase : (popChunk s c (st.mem (slotAddr s st.cur c.free_idx))).base = st.cur := by
    simpa [popChunk] using findChunk_base hcur
  have hf : findChunk { st with chunks := setChunkL st.chunks st.cur (popChunk s c (st.mem (slotAddr s st.cur c.free_idx))) } st.cur = some (popChunk s c (st.mem (slotAddr s st.cur c.free_idx))) := by
    unfold findChunk
    exact find?_setChunkL_self st.chunks st.cur c _ hcur hbase
  rw [Allocate_pop s acq st c hcur h0 hfree hfull]
  refine ⟨rfl, ?_⟩
  dsimp only [headerOf?, headerOf, Option.map, Option.bind]
  rw [hf]
  simp [popChunk]

/-- C6 witness: the A-B-C scenario with `sizeof(T) = 1360`
(`kChipCount = 3`).  After allocating A = 4112, B = 5472, C = 6832 from
one fresh chunk and deallocating B, the next `Allocate` returns exactly
B's address 5472, and the free list becomes empty again (the link stored
in B's slot is the sentinel). -/
theorem C6_lifo_witness :
    (findChunk stABC stABC.cur = some ⟨4096, 1, 3, 2, 0⟩ ∧ stABC.cur ≠ 0 ∧
      (1 : Nat) ≠ kInvalidIdx ∧ (2 : Nat) ≠ kChipCount 1360) ∧
    (Pool.Allocate 1360 stdAcq stABC).map Prod.fst = some 5472 ∧
    headerOf? ((Pool.Allocate 1360 stdAcq stABC).map Prod.snd) stABC.cur =
      some (kInvalidIdx, 3, 3, 0) := by
  have hc : findChunk stABC stABC.cur = some ⟨4096, 1, 3, 2, 0⟩ := by decide
  have h := C6_lifo 1360 stdAcq stABC ⟨4096, 1, 3, 2, 0⟩ hc (by decide) (by decide) (by decide)
  refine ⟨⟨hc, by decide, by decide, by decide⟩, ?_, ?_⟩
  · rw [h.1]; decide
  · rw [h.2]; decide

/-- `Deallocate` on a non-full chunk whose `used_count` is 1: the rotation
branch is skipped, `used_count` drops to 0 and the chunk is reset
(`free_idx` to the sentinel, `begin_idx` to 0). -/
theorem Deallocate_reset (s : Nat) (st : PoolState) (ptr : Nat) (pool : Chunk)
    (hfind : findChunk st (maskAddr ptr) = some pool)
    (hnotfull : pool.used_count ≠ kChipCount s)
    (hused : pool.used_count = 1) :
    Pool.Deallocate s st ptr =
      some { st with chunks := setChunkL st.chunks (maskAddr ptr) (resetChunk pool) } := by
  have hfull' : SubPool.IsFull s pool = false := by
    simpa [SubPool.IsFull] using hnotfull
  simp [Pool.Deallocate, Pool.DeallocCommit, hfind, hfull', hused, resetChunk]

/-- C7: empty reset.  If a `Deallocate` call brings a chunk's
`used_count` from 1 to 0 (the pool's current chunk, with
`1 < kChipCount`), that call sets the chunk's `free_idx` to the sentinel
and its `begin_idx` to 0, discarding the free-list chain; the next
`Allocate` from this chunk returns its slot 0 through the bump path
(`free_idx` is still the sentinel afterwards and `begin_idx` moved
0 → 1). -/
theorem C7_reset (s : Nat) (acq : Nat → Nat) (st : PoolState) (ptr : Nat) (pool : Chunk)
    (hfind : findChunk st (maskAddr ptr) = some pool)
    (hused : pool.used_count = 1)
    (hcnt : 1 < kChipCount s)
    (hcur : st.cur = maskAddr ptr) (h0 : maskAddr ptr ≠ 0) :
    Pool.Deallocate s st ptr =
      some { st with chunks := setChunkL st.chunks (maskAddr ptr) (resetChunk pool) } ∧
    headerOf { st with chunks := setChunkL st.chunks (maskAddr ptr) (resetChunk pool) }
        (maskAddr ptr) = some (kInvalidIdx, 0, 0, pool.next_pool) ∧
    (Pool.Allocate s acq { st with chunks := setChunkL st.chunks (maskAddr ptr) (resetChunk pool) }).map
        Prod.fst = some (slotAddr s (maskAddr ptr) 0) ∧
    headerOf? ((Pool.Allocate s acq { st with chunks := setChunkL st.chunks (maskAddr ptr) (resetChunk pool) }).map
        Prod.snd) (maskAddr ptr) = some (kInvalidIdx, 1, 1, pool.next_pool) := by
  have hnotfull : pool.used_count ≠ kChipCount s := by omega
  have hbase : (resetChunk pool).base = maskAddr ptr := by
    simpa [resetChunk] using findChunk_base hfind
  have hf : findChunk { st with chunks := setChunkL st.chunks (maskAddr ptr) (resetChunk pool) } (maskAddr ptr) = some (resetChunk pool) := by
    unfold findChunk
    exact find?_setChunkL_self st.chunks (maskAddr ptr) pool _ hfind hbase
  have hf' : findChunk { st with chunks := setChunkL st.chunks (maskAddr ptr) (resetChunk pool) } st.cur = some (resetChunk pool) := by
    rw [hcur]; exact hf
  have hfull2 : (resetChunk pool).used_count ≠ kChipCount s := by
    simp [resetChunk]; omega
  have hfree2 : (resetChunk pool).free_idx = kInvalidIdx := rfl
  have hb := Allocate_bump s acq
    { st with chunks := setChunkL st.chunks (maskAddr ptr) (resetChunk pool) }
    (resetChunk pool) hf' (by show st.cur ≠ 0; rw [hcur]; exact h0) hfree2 hfull2
  have hbase2 : (bumpChunk (resetChunk pool)).base = maskAddr ptr := by
    simpa [bumpChunk] using hbase
  have hlist1 : (setChunkL st.chunks (maskAddr ptr) (resetChunk pool)).find?
      (fun x => x.base == maskAddr ptr) = some (resetChunk pool) :=
    find?_setChunkL_self st.chunks (maskAddr ptr) pool (resetChunk pool) hfind hbase
  have hf2 : findChunk
      { chunks := setChunkL (setChunkL st.chunks (maskAddr ptr) (resetChunk pool)) (maskAddr ptr) (bumpChunk (resetChunk pool)),
        cur := maskAddr ptr, mem := st.mem, acqCount := st.acqCount,
        releaseCalls := st.releaseCalls }
      (maskAddr ptr) = some (bumpChunk (resetChunk pool)) := by
    unfold findChunk
    exact find?_setChunkL_self _ (maskAddr ptr) (resetChunk pool) _ hlist1 hbase2
  refine ⟨Deallocate_reset s st ptr pool hfind hnotfull hused, ?_, ?_, ?_⟩
  · unfold headerOf
    rw [hf]
    simp [resetChunk]
  · rw [hb]
    simp [resetChunk, hcur]
  · rw [hb]
    dsimp only [headerOf?, headerOf, Option.map, Option.bind]
    rw [hcur]
    rw [hf2]
    simp [bumpChunk, resetChunk]

/-- C7 witness: `sizeof(T) = 1360` (`kChipCount = 3`).  Fill the chunk at
4096 (slots 4112, 5472, 6832), deallocate 5472 and 6832; in state `stC7`
one live slot (4112) remains and the free list holds two entries.
Deallocating 4112 resets the chunk (`used_count = 0`, `free_idx` =
sentinel, `begin_idx = 0`) and the next `Allocate` returns slot 0
(address 4112) by the bump path. -/
theorem C7_reset_witness :
    (findChunk stC7 (maskAddr 4112) = some ⟨4096, 2, 3, 1, 0⟩ ∧
      stC7.cur = maskAddr 4112 ∧ 1 < kChipCount 1360) ∧
    Pool.Deallocate 1360 stC7 4112 =
      some { stC7 with chunks := setChunkL stC7.chunks (maskAddr 4112) (resetChunk ⟨4096, 2, 3, 1, 0⟩) } ∧
    headerOf { stC7 with chunks := setChunkL stC7.chunks (maskAddr 4112) (resetChunk ⟨4096, 2, 3, 1, 0⟩) }
        (maskAddr 4112) = some (kInvalidIdx, 0, 0, 0) ∧
    (Pool.Allocate 1360 stdAcq { stC7 with chunks := setChunkL stC7.chunks (maskAddr 4112) (resetChunk ⟨4096, 2, 3, 1, 0⟩) }).map
        Prod.fst = some (slotAddr 1360 (maskAddr 4112) 0) := by
  have hfind : findChunk stC7 (maskAddr 4112) = some ⟨4096, 2, 3, 1, 0⟩ := by decide
  have h := C7_reset 1360 stdAcq stC7 4112 ⟨4096, 2, 3, 1, 0⟩ hfind (by decide) (by decide)
    (by decide) (by decide)
  exact ⟨⟨hfind, by decide, by decide⟩, h.1, h.2.1, h.2.2.1⟩

theorem findChunk_set1_other (st : PoolState) (b0 : Nat) (c1 : Chunk)
    (cu : Nat) (me : Nat → Nat) (aq rc : Nat)
    (h1 : c1.base = b0) (b : Nat) (hb : b ≠ b0) :
    findChunk ⟨setChunkL st.chunks b0 c1, cu, me, aq, rc⟩ b = findChunk st b := by
  unfold findChunk
  dsimp only
  rw [find?_setChunkL_other _ _ _ _ h1 hb]

theorem findChunk_set2_other (st : PoolState) (b0 : Nat) (c1 c2 : Chunk)
    (cu : Nat) (me : Nat → Nat) (aq rc : Nat)
    (h1 : c1.base = b0) (h2 : c2.base = b0) (b : Nat) (hb : b ≠ b0) :
    findChunk ⟨setChunkL (setChunkL st.chunks b0 c1) b0 c2, cu, me, aq, rc⟩ b =
      findChunk st b := by
  unfold findChunk
  dsimp only
  rw [find?_setChunkL_other _ _ _ _ h2 hb, find?_setChunkL_other _ _ _ _ h1 hb]

/-- C8: rotation on free-from-full.  If `Deallocate` is handed a slot of
a chunk that is full at the time of the call (and the current chunk
exists), then after the call the chunk recovered by masking the pointer
is the pool's current chunk, and the header of every chunk at any other
base address is unchanged by the call. -/
theorem C8_rotation (s : Nat) (st : PoolState) (ptr : Nat) (pool curc : Chunk)
    (hfind : findChunk st (maskAddr ptr) = some pool)
    (hfull : pool.used_count = kChipCount s)
    (hcur : findChunk st st.cur = some curc) :
    ∃ st', Pool.Deallocate s st ptr = some st' ∧ st'.cur = maskAddr ptr ∧
      ∀ b, b ≠ maskAddr ptr → findChunk st' b = findChunk st b := by
  have hbase : pool.base = maskAddr ptr := findChunk_base hfind
  have hfull' : SubPool.IsFull s pool = true := by
    simp [SubPool.IsFull, hfull]
  have hfind_l : st.chunks.find? (fun x => x.base == maskAddr ptr) = some pool := hfind
  have hcur_l : st.chunks.find? (fun x => x.base == st.cur) = some curc := hcur
  cases hcf : SubPool.IsFull s curc with
  | false =>
    have hb1 : ({ pool with next_pool := st.cur } : Chunk).base = maskAddr ptr := hbase
    have hre : (setChunkL st.chunks (maskAddr ptr) { pool with next_pool := st.cur }).find?
        (fun x => x.base == maskAddr ptr) = some { pool with next_pool := st.cur } :=
      find?_setChunkL_self _ _ pool _ hfind_l hb1
    simp only [Pool.Deallocate, Pool.DeallocCommit, findChunk, hfind_l, hcur_l, hfull',
      hcf, hre, Bool.false_eq_true, not_false_eq_true, if_true, if_false, ite_true,
      ite_false]
    split
    · refine ⟨_, rfl, rfl, fun b hb => findChunk_set2_other st (maskAddr ptr) _ _ _ _ _ _
        ?_ ?_ b hb⟩
      · exact hb1
      · exact hbase
    · refine ⟨_, rfl, rfl, fun b hb => findChunk_set2_other st (maskAddr ptr) _ _ _ _ _ _
        ?_ ?_ b hb⟩
      · exact hb1
      · exact hbase
  | true =>
    simp only [Pool.Deallocate, Pool.DeallocCommit, findChunk, hfind_l, hcur_l, hfull',
      hcf, Bool.false_eq_true, not_true_eq_false, if_true, if_false, ite_true,
      ite_false]
    split
    · refine ⟨_, rfl, rfl, fun b hb => findChunk_set1_other st (maskAddr ptr) _ _ _ _ _
        ?_ b hb⟩
      exact hbase
    · refine ⟨_, rfl, rfl, fun b hb => findChunk_set1_other st (maskAddr ptr) _ _ _ _ _
        ?_ b hb⟩
      exact hbase

/-- C8 witness: `sizeof(T) = 2040` (`kChipCount = 2`).  In state `stC8`
chunk X at 4096 is full and chunk Y at 8192 is current with one used
slot.  Deallocating X's slot 4112 makes X the current chunk and leaves
Y's header exactly as it was. -/
theorem C8_rotation_witness :
    (findChunk stC8 (maskAddr 4112) = some ⟨4096, 65535, 2, 2, 0⟩ ∧
      (⟨4096, 65535, 2, 2, 0⟩ : Chunk).used_count = kChipCount 2040 ∧
      findChunk stC8 stC8.cur = some ⟨8192, 65535, 1, 1, 0⟩) ∧
    (∃ st', Pool.Deallocate 2040 stC8 4112 = some st' ∧ st'.cur = maskAddr 4112 ∧
      ∀ b, b ≠ maskAddr 4112 → findChunk st' b = findChunk stC8 b) := by
  have h1 : findChunk stC8 (maskAddr 4112) = some ⟨4096, 65535, 2, 2, 0⟩ := by decide
  have h2 : findChunk stC8 stC8.cur = some ⟨8192, 65535, 1, 1, 0⟩ := by decide
  exact ⟨⟨h1, by decide, h2⟩,
    C8_rotation 2040 stC8 4112 ⟨4096, 65535, 2, 2, 0⟩ ⟨8192, 65535, 1, 1, 0⟩
      h1 (by decide) h2⟩

theorem Allocate_releaseCalls (s : Nat) (acq : Nat → Nat) (st : PoolState)
    (r : Nat × PoolState) (h : Pool.Allocate s acq st = some r) :
    r.2.releaseCalls = st.releaseCalls := by
  unfold Pool.Allocate Pool.AllocSubPool at h
  dsimp only at h
  repeat' split at h
  all_goals first
    | exact Option.noConfusion h
    | (cases h; rfl)

theorem DeallocCommit_releaseCalls (s ptr base idx : Nat) (stR st' : PoolState)
    (h : Pool.DeallocCommit s ptr base idx stR = some st') :
    st'.releaseCalls = stR.releaseCalls := by
  unfold Pool.DeallocCommit at h
  dsimp only at h
  repeat' split at h
  all_goals first
    | exact Option.noConfusion h
    | (cases h; rfl)

theorem Deallocate_releaseCalls (s : Nat) (st : PoolState) (ptr : Nat)
    (st' : PoolState) (h : Pool.Deallocate s st ptr = some st') :
    st'.releaseCalls = st.releaseCalls := by
  unfold Pool.Deallocate at h
  dsimp only at h
  repeat' split at h
  all_goals first
    | exact Option.noConfusion h
    | (rw [DeallocCommit_releaseCalls _ _ _ _ _ _ h]
       rename_i stR heq
       repeat' split at heq
       all_goals first
         | exact Option.noConfusion heq
         | (cases heq; rfl))

/-- C9: the pool never invokes the injected release strategy.  Over any
sequence of `Allocate` and `Deallocate` calls from any state, the count
of calls to the injected `deallocate_` strategy is unchanged (no
operation in the implementation calls it), and the destructor (`~Pool()`
has an empty body) does not change it either. -/
theorem C9_no_release (s : Nat) (acq : Nat → Nat) (ops : List Op) :
    ∀ (st st' : PoolState), runOps s acq ops st = some st' →
      st'.releaseCalls = st.releaseCalls ∧
      (Pool.destroy st').releaseCalls = st.releaseCalls := by
  induction ops with
  | nil =>
    intro st st' h
    simp [runOps] at h
    subst h
    exact ⟨rfl, rfl⟩
  | cons op rest ih =>
    intro st st' h
    cases op with
    | alloc =>
      dsimp only [runOps] at h
      cases hA : Pool.Allocate s acq st with
      | none => rw [hA] at h; exact Option.noConfusion h
      | some r =>
        rw [hA] at h
        dsimp only [Option.bind] at h
        have h1 := Allocate_releaseCalls s acq st r hA
        have h2 := (ih r.2 st' h).1
        rw [Pool.destroy]
        rw [h2, h1]
        exact ⟨rfl, rfl⟩
    | dealloc a =>
      dsimp only [runOps] at h
      cases hD : Pool.Deallocate s st a with
      | none => rw [hD] at h; exact Option.noConfusion h
      | some stD =>
        rw [hD] at h
        dsimp only [Option.bind] at h
        have h1 := Deallocate_releaseCalls s st a stD hD
        have h2 := (ih stD st' h).1
        rw [Pool.destroy]
        rw [h2, h1]
        exact ⟨rfl, rfl⟩

/-- C9 witness: along the eight-operation run `opsC2` (three allocations,
a deallocation, two allocations, a deallocation, an allocation — which
also empties no chunk is required to trigger a release: none exists),
the release-strategy call count stays 0, and destruction keeps it 0. -/
theorem C9_no_release_witness :
    runOps 2040 stdAcq opsC2 init0 = some stC9 ∧
    stC9.releaseCalls = init0.releaseCalls ∧
    (Pool.destroy stC9).releaseCalls = init0.releaseCalls := by
  have hrun : runOps 2040 stdAcq opsC2 init0 = some stC9 := rfl
  have h := C9_no_release 2040 stdAcq opsC2 init0 stC9 hrun
  exact ⟨hrun, h.1, h.2⟩

/-- C10: frame of `AllocSubPool`.  For any pre-existing memory contents
`init` of the acquired page, the produced chunk headers have
`free_idx = kInvalidIdx` written; for `sizeof(T) = 1` the eight chained
sub-pools additionally have their seven internal `next_pool` links
written (the last sub-pool's `next_pool` keeps the memory's old value);
`begin_idx` and `used_count` are never written — each keeps exactly the
value the acquired memory already held, so a fresh chunk reads as empty
(`begin_idx = 0`, `used_count = 0`) only if the memory was
zero-initialized. -/
theorem C10_frame (s p : Nat) (init : Nat → Chunk) (k : Nat) (c : Chunk)
    (h : (allocSubPoolChunks s p init)[k]? = some c) :
    c.free_idx = kInvalidIdx ∧
    (s = 1 → c.begin_idx = (init k).begin_idx ∧ c.used_count = (init k).used_count ∧
      c.base = p + subPool1Size * k ∧
      (k < poolNum1 - 1 → c.next_pool = p + subPool1Size * (k + 1)) ∧
      (k = poolNum1 - 1 → c.next_pool = (init k).next_pool)) ∧
    (s ≠ 1 → k = 0 ∧ c.begin_idx = (init 0).begin_idx ∧
      c.used_count = (init 0).used_count ∧ c.next_pool = (init 0).next_pool ∧
      c.base = p) := by
  by_cases hs : s = 1
  · subst hs
    unfold allocSubPoolChunks at h
    rw [if_pos rfl, List.getElem?_map] at h
    cases hk : (List.range poolNum1)[k]? with
    | none => rw [hk] at h; exact Option.noConfusion h
    | some j =>
      have hjk : j = k := by
        by_cases hklt : k < poolNum1
        · rw [List.getElem?_range hklt] at hk
          exact (Option.some.injEq _ _ ▸ hk).symm
        · rw [List.getElem?_eq_none (by simpa using hklt)] at hk
          exact Option.noConfusion hk
      subst hjk
      rw [hk] at h
      dsimp only [Option.map] at h
      cases h
      refine ⟨rfl, fun _ => ⟨rfl, rfl, rfl, ?_, ?_⟩, fun hs' => absurd rfl hs'⟩
      · intro hlt
        dsimp only
        rw [if_pos hlt]
      · intro heq
        dsimp only
        rw [if_neg (by omega)]
  · unfold allocSubPoolChunks at h
    rw [if_neg hs] at h
    cases k with
    | zero =>
      rw [List.getElem?_cons, if_pos rfl] at h
      cases h
      exact ⟨rfl, fun h1 => absurd h1 hs, fun _ => ⟨rfl, rfl, rfl, rfl, rfl⟩⟩
    | succ k' =>
      rw [List.getElem?_cons, if_neg (by omega)] at h
      simp at h

/-- C10 witness: a 1-byte-object acquisition at page 4096 whose memory
already held the garbage header `(free 7, begin 5, used 6, next 9)` in
every sub-pool slot: the last chained sub-pool (index 7, base 7680) gets
`free_idx` overwritten with the sentinel but keeps `begin_idx = 5`,
`used_count = 6`, and even its old `next_pool = 9` — it does not read as
an empty chunk. -/
theorem C10_frame_witness :
    (allocSubPoolChunks 1 4096 (fun _ => ⟨7, 7, 5, 6, 9⟩))[7]? =
      some ⟨7680, 65535, 5, 6, 9⟩ ∧
    (⟨7680, 65535, 5, 6, 9⟩ : Chunk).free_idx = kInvalidIdx ∧
    (⟨7680, 65535, 5, 6, 9⟩ : Chunk).used_count =
      ((fun _ => (⟨7, 7, 5, 6, 9⟩ : Chunk)) 7).used_count ∧
    (⟨7680, 65535, 5, 6, 9⟩ : Chunk).used_count ≠ 0 := by
  have hh : (allocSubPoolChunks 1 4096 (fun _ => ⟨7, 7, 5, 6, 9⟩))[7]? =
      some ⟨7680, 65535, 5, 6, 9⟩ := by decide
  have h := C10_frame 1 4096 (fun _ => ⟨7, 7, 5, 6, 9⟩) 7 ⟨7680, 65535, 5, 6, 9⟩ hh
  exact ⟨hh, h.1, (h.2.1 rfl).2.1, by decide⟩

end Chipool
